import Mathlib

/-!
Verification of the task-store of `samplecodes-by-OtherAI`.

Two implementations are embedded:
* `TodoSpec.Claude` — `src/Claude/todoapp/todoapp.py`, class `TodoTaskTool`:
  tasks are JSON records with id/description/completed/priority/due_date/created_at.
* `TodoSpec.Perplexity` — `src/Perplexity/todoapp.py`, class `TodoApp`:
  tasks are `[description, status]` string pairs persisted one per line,
  fields joined by `|`.

Python strings are modelled as Lean `String` (ASCII assumed where the code
lowercases or matches `\d`), `datetime.now()` as an explicit `now` argument,
and file I/O as explicit state passing (the JSON codec of the standard
library is abstracted into a `JsonFile` sum; the delimited text format is
modelled down to the character level).
-/

namespace TodoSpec

/-- Python single-character `str.split(sep)` on a character list:
`"a||b".split("|") == ["a","","b"]`, `"".split("|") == [""]`. -/
def splitOnChar (sep : Char) : List Char → List (List Char)
  | [] => [[]]
  | c :: rest =>
    if c = sep then [] :: splitOnChar sep rest
    else
      match splitOnChar sep rest with
      | [] => [[c]]
      | l :: ls => (c :: l) :: ls

namespace Claude

/-- A task record as built by `TodoTaskTool.add_task`
(`src/Claude/todoapp/todoapp.py`, lines 69–76).  `due_date` is `none` for
Python `None`; `created_at` is the formatted `datetime.now()` string. -/
structure Task where
  id : Nat
  description : String
  completed : Bool
  priority : String
  due_date : Option String
  created_at : String
deriving DecidableEq, Repr

/-- Gregorian leap year, as `datetime.date` uses. -/
def isLeap (y : Nat) : Bool := (y % 4 == 0 && y % 100 != 0) || y % 400 == 0

/-- Days in month `m` of year `y`, as `datetime.date` validates. -/
def daysInMonth (y m : Nat) : Nat :=
  if m = 2 then (if isLeap y then 29 else 28)
  else if m = 4 || m = 6 || m = 9 || m = 11 then 30
  else 31

/-- Numeric value of a digit string. -/
def digitsToNat (l : List Char) : Nat :=
  l.foldl (fun n c => n * 10 + (c.toNat - '0'.toNat)) 0

/-- Model of `datetime.strptime(s, '%Y-%m-%d')` succeeding (line 64).
CPython compiles the format to the anchored, fully-consumed regex
`\d\d\d\d-(1[0-2]|0[1-9]|[1-9])-(3[01]|[12]\d|0[1-9]|[1-9])` and then
builds `datetime.date(y, m, d)`, which additionally checks `1 <= y` and
`d <= days_in_month(y, m)`.  On strings made of ASCII characters this is
equivalent to: exactly three `-`-separated fields, a 4-digit year, a 1–2
digit month and day, and a valid Gregorian calendar date. -/
def validYMD (s : String) : Bool :=
  match splitOnChar '-' s.data with
  | [ys, ms, ds] =>
    ys.length == 4 && ys.all (·.isDigit) &&
    (ms.length == 1 || ms.length == 2) && ms.all (·.isDigit) &&
    (ds.length == 1 || ds.length == 2) && ds.all (·.isDigit) &&
    (let y := digitsToNat ys
     let m := digitsToNat ms
     let d := digitsToNat ds
     decide (1 ≤ y) && decide (1 ≤ m) && decide (m ≤ 12) &&
     decide (1 ≤ d) && decide (d ≤ daysInMonth y m))
  | _ => false

/-- `TodoTaskTool.add_task` (lines 44–80), with `datetime.now()` passed in
as `now`.  Returns the created task, the new task list, and the messages
printed.  `due_date = some ""` is falsy in Python (`if due_date:`), so it
skips validation and is stored verbatim. -/
def add_task (tasks : List Task) (description : String) (priority : String)
    (due_date : Option String) (now : String) :
    Task × List Task × List String :=
  let priority := priority.toLower
  let priority :=
    if priority = "low" || priority = "medium" || priority = "high" then priority
    else "medium"
  let dw : Option String × List String :=
    match due_date with
    | none => (none, [])
    | some s =>
      if s = "" then (some s, [])
      else if validYMD s then (some s, [])
      else (none, ["Invalid date format. Use YYYY-MM-DD. No due date set."])
  let task : Task :=
    { id := tasks.length + 1
      description := description
      completed := false
      priority := priority
      due_date := dw.1
      created_at := now }
  (task, tasks ++ [task], dw.2)

/-- `TodoTaskTool.list_tasks` (lines 82–96). -/
def list_tasks (tasks : List Task) (filter_type : Option String) : List Task :=
  if filter_type = some "completed" then tasks.filter (fun t => t.completed)
  else if filter_type = some "pending" then tasks.filter (fun t => !t.completed)
  else tasks

/-- The loop body of `mark_task_complete` (lines 108–112): set
`completed = True` on the first task whose id matches, reporting whether
one was found. -/
def markAux (tid : Nat) : List Task → List Task × Bool
  | [] => ([], false)
  | t :: ts =>
    if t.id = tid then ({ t with completed := true } :: ts, true)
    else
      let r := markAux tid ts
      (t :: r.1, r.2)

/-- `TodoTaskTool.mark_task_complete` (lines 98–114): the new task list,
whether the id was found, and the messages printed (persistence is layered
on in `completeStore`). -/
def mark_task_complete (tasks : List Task) (tid : Nat) :
    List Task × Bool × List String :=
  let r := markAux tid tasks
  (r.1, r.2, if r.2 then [] else ["Task with ID " ++ toString tid ++ " not found."])

/-- `del self.tasks[i]` for the first `i` with a matching id (lines 126–128):
`none` when no task matches. -/
def removeAux (tid : Nat) : List Task → Option (List Task)
  | [] => none
  | t :: ts =>
    if t.id = tid then some ts
    else (removeAux tid ts).map (fun l => t :: l)

/-- The reindex loop `for j, t in enumerate(self.tasks, 1): t['id'] = j`
(lines 130–131), started at `k`. -/
def reindexFrom (k : Nat) : List Task → List Task
  | [] => []
  | t :: ts => { t with id := k } :: reindexFrom (k + 1) ts

/-- `TodoTaskTool.remove_task` (lines 116–135): the new task list, whether
the id was found, and the messages printed. -/
def remove_task (tasks : List Task) (tid : Nat) :
    List Task × Bool × List String :=
  match removeAux tid tasks with
  | some ts => (reindexFrom 1 ts, true, [])
  | none => (tasks, false, ["Task with ID " ++ toString tid ++ " not found."])

/-- The backing JSON file, with the standard-library codec abstracted:
`absent` — `os.path.exists` is false; `undecodable` — the file exists but
its bytes are not valid UTF-8, so reading inside `json.load` raises
`UnicodeDecodeError`, which the `except (json.JSONDecodeError, IOError)`
clause does not catch; `invalid` — the file exists and decodes but
`json.load` raises `JSONDecodeError`, or `open`/read raises `IOError`;
`valid tasks` — `json.load` returns the task list. -/
inductive JsonFile where
  | absent
  | undecodable
  | invalid
  | valid (tasks : List Task)
deriving DecidableEq

/-- `TodoTaskTool.load_tasks` (lines 17–32): the loaded list and the
messages printed on normal return, or the uncaught exception
(`UnicodeDecodeError` on an existing file with undecodable bytes). -/
def load_tasks (file : JsonFile) : Except String (List Task × List String) :=
  match file with
  | .absent => .ok ([], [])
  | .undecodable => .error "UnicodeDecodeError"
  | .invalid => .ok ([], ["Error reading tasks.json. Starting with an empty task list."])
  | .valid ts => .ok (ts, [])

/-- `TodoTaskTool.save_tasks` (lines 34–42).  `writeOk` models whether the
`open`/`json.dump` raises `IOError`; on failure the exception is caught and
a message printed. -/
def save_tasks (tasks : List Task) (writeOk : Bool) (file : JsonFile) :
    JsonFile × List String :=
  if writeOk then (JsonFile.valid tasks, [])
  else (file, ["Error saving tasks to tasks.json"])

/-- The mutable state of a `TodoTaskTool` instance: `self.tasks` plus the
backing file. -/
structure Store where
  tasks : List Task
  file : JsonFile
deriving DecidableEq

/-- `add_task` including the `save_tasks` call (line 79). -/
def addStore (s : Store) (description priority : String) (due_date : Option String)
    (now : String) (writeOk : Bool) : Task × Store × List String :=
  let r := add_task s.tasks description priority due_date now
  let w := save_tasks r.2.1 writeOk s.file
  (r.1, ⟨r.2.1, w.1⟩, r.2.2 ++ w.2)

/-- `mark_task_complete` including the `save_tasks` call (line 111): save
runs only when a task was found. -/
def completeStore (s : Store) (tid : Nat) (writeOk : Bool) :
    Bool × Store × List String :=
  let r := mark_task_complete s.tasks tid
  if r.2.1 then
    let w := save_tasks r.1 writeOk s.file
    (true, ⟨r.1, w.1⟩, r.2.2 ++ w.2)
  else (false, s, r.2.2)

/-- `remove_task` including the `save_tasks` call (line 132). -/
def removeStore (s : Store) (tid : Nat) (writeOk : Bool) :
    Bool × Store × List String :=
  let r := remove_task s.tasks tid
  if r.2.1 then
    let w := save_tasks r.1 writeOk s.file
    (true, ⟨r.1, w.1⟩, r.2.2 ++ w.2)
  else (false, s, r.2.2)

/-- `list_tasks` at store level: the code calls no `save_tasks` and mutates
nothing, so the store is returned unchanged and nothing is printed. -/
def listStore (s : Store) (filter_type : Option String) :
    List Task × Store × List String :=
  (list_tasks s.tasks filter_type, s, [])

end Claude

namespace Perplexity

/-- The characters Python's `str.isspace()` accepts and `str.strip()`
removes (CPython's `Py_UNICODE_ISSPACE`): tab, newline, vertical tab,
form feed, carriage return, the file/group/record/unit separators
`\x1c`-`\x1f`, the space, next-line `\x85`, no-break space `\xa0`, the
Ogham space mark `\u1680`, the typographic spaces `\u2000`-`\u200a`, the
line and paragraph separators `\u2028`/`\u2029`, the narrow no-break and
medium mathematical spaces `\u202f`/`\u205f`, and the ideographic space
`\u3000`. -/
def pyIsSpace (c : Char) : Bool :=
  c = ' ' || c = '\t' || c = '\n' || c = '\x0b' || c = '\x0c' || c = '\r' ||
  c = '\x1c' || c = '\x1d' || c = '\x1e' || c = '\x1f' ||
  c = '\x85' || c = '\xa0' || c = '\u1680' ||
  c = '\u2000' || c = '\u2001' || c = '\u2002' || c = '\u2003' ||
  c = '\u2004' || c = '\u2005' || c = '\u2006' || c = '\u2007' ||
  c = '\u2008' || c = '\u2009' || c = '\u200a' ||
  c = '\u2028' || c = '\u2029' || c = '\u202f' || c = '\u205f' || c = '\u3000'

/-- `line.strip()` on a character list. -/
def pyStrip (l : List Char) : List Char :=
  ((l.dropWhile pyIsSpace).reverse.dropWhile pyIsSpace).reverse

/-- Universal-newline translation performed by `open(filename, "r")` when
reading: `\r\n` and lone `\r` both become `\n`. -/
def univNL : List Char → List Char
  | [] => []
  | c :: rest =>
    if c = '\r' then
      match rest with
      | [] => ['\n']
      | c2 :: rest2 =>
        if c2 = '\n' then '\n' :: univNL rest2
        else '\n' :: univNL (c2 :: rest2)
    else c :: univNL rest

/-- `f.readlines()` after newline translation, with the terminators
dropped (the code strips each line anyway, and `strip` removes a trailing
`\n`): split on `\n` and drop the final empty piece that `splitOnChar`
produces when the content ends in `\n` (or is empty), which `readlines`
does not yield as a line. -/
def readLines (content : List Char) : List (List Char) :=
  let ls := splitOnChar '\n' (univNL content)
  match ls.getLast? with
  | some [] => ls.dropLast
  | _ => ls

/-- `TodoApp.load_tasks` parsing (`src/Perplexity/todoapp.py`, line 13):
`[line.strip().split("|") for line in f.readlines()]` applied to the file
content. -/
def parseTasks (content : String) : List (List String) :=
  (readLines content.data).map
    (fun line => (splitOnChar '|' (pyStrip line)).map (fun l => String.mk l))

/-- `TodoApp.load_tasks` (lines 10–13): when the file does not exist,
`self.tasks` is left unchanged (the constructor initialised it to `[]`). -/
def load_tasks (fileExists : Bool) (content : String)
    (tasks : List (List String)) : List (List String) :=
  if fileExists then parseTasks content else tasks

/-- The bytes written by `TodoApp.save_tasks` (lines 15–18):
`f"{task[0]}|{task[1]}\n"` per task (on POSIX, text-mode writing is the
identity on `\n`).  Python would raise `IndexError` on a task shorter than
2 fields; `getD` totalises that, and every theorem below constrains tasks
to `[description, status]` pairs. -/
def saveData (tasks : List (List String)) : List Char :=
  (tasks.map (fun t => (t.getD 0 "").data ++ '|' :: (t.getD 1 "").data ++ ['\n'])).flatten

/-- `TodoApp.save_tasks` content as a string. -/
def save_content (tasks : List (List String)) : String :=
  String.mk (saveData tasks)

/-- `TodoApp.save_tasks` with the write outcome explicit: there is no
`try`/`except` around `open(..., "w")`, so a failing write raises `IOError`
out of `save_tasks` (modelled as `Except.error`). -/
def save_tasks (tasks : List (List String)) (writeOk : Bool) :
    Except String String :=
  if writeOk then .ok (save_content tasks) else .error "IOError"

/-- `TodoApp.add_task` (lines 20–23): `self.tasks.append([task, "Pending"])`
happens before `save_tasks`, so the first component is `self.tasks` after
the call even when the save raises; the second is the normal-return value
(the printed messages) or the escaping exception. -/
def add_task (tasks : List (List String)) (task : String) (writeOk : Bool) :
    List (List String) × Except String (List String) :=
  let ts := tasks ++ [[task, "Pending"]]
  (ts, (save_tasks ts writeOk).map
    (fun _ => ["Task '" ++ task ++ "' added successfully."]))

/-- `TodoApp.mark_complete` (lines 32–38) without the save: 1-based index
update of the status field. -/
def mark_complete (tasks : List (List String)) (task_index : Nat) :
    List (List String) :=
  if 1 ≤ task_index ∧ task_index ≤ tasks.length then
    tasks.set (task_index - 1) ((tasks.getD (task_index - 1) []).set 1 "Completed")
  else tasks

/-- The first character, if any, is not strippable. -/
def headOk (l : List Char) : Bool :=
  match l.head? with
  | some c => !pyIsSpace c
  | none => true

/-- The last character, if any, is not strippable. -/
def lastOk (l : List Char) : Bool :=
  match l.getLast? with
  | some c => !pyIsSpace c
  | none => true

/-- No delimiter and no newline (including `\r`, which text-mode reading
folds into `\n`) occurs in the field. -/
def noBad (l : List Char) : Bool :=
  l.all (fun c => c != '|' && c != '\n' && c != '\r')

/-- A task the delimited format can represent faithfully: a
`[description, status]` pair whose fields contain no delimiter `|` and no
newline, whose description does not start with strippable whitespace, and
whose status does not end with strippable whitespace.  Every task the app
itself builds (`[input_text, "Pending"/"Completed"]`) with a
delimiter-free, newline-free, non-space-led description satisfies this. -/
def wfTask : List String → Bool
  | [d, s] => noBad d.data && noBad s.data && headOk d.data && lastOk s.data
  | _ => false

/-- The payload of one saved line, before its `\n` terminator. -/
def lineCore (t : List String) : List Char :=
  (t.getD 0 "").data ++ '|' :: (t.getD 1 "").data

end Perplexity

namespace Claude

/-- A task with its id cleared: the identity-independent content of a
task, used to state that removal preserves the survivors' relative
order. -/
def stripId (t : Task) : Task := { t with id := 0 }

/-- The spec's id-density invariant: the ids of the collection are, as a
multiset, exactly `{1..N}` where `N` is the current task count. -/
def idInv (ts : List Task) : Prop :=
  (ts.map (fun t => t.id)).Perm (List.range' 1 ts.length)

/-- Task lists reachable from the empty collection by store operations. -/
inductive Reachable : List Task → Prop
  | empty : Reachable []
  | add (ts : List Task) (d p : String) (dd : Option String) (now : String) :
      Reachable ts → Reachable (add_task ts d p dd now).2.1
  | complete (ts : List Task) (tid : Nat) :
      Reachable ts → Reachable (mark_task_complete ts tid).1
  | remove (ts : List Task) (tid : Nat) :
      Reachable ts → Reachable (remove_task ts tid).1

/-- A sample pending task, for witnesses. -/
def exTask1 : Task :=
  { id := 1, description := "Buy milk", completed := false,
    priority := "medium", due_date := none,
    created_at := "2024-01-01 09:00:00" }

/-- A sample completed task, for witnesses. -/
def exTask2 : Task :=
  { id := 2, description := "Call Bob", completed := true,
    priority := "high", due_date := some "2024-01-01",
    created_at := "2024-01-01 09:05:00" }

/-- A sample two-task store, for witnesses. -/
def exStore : Store :=
  { tasks := [exTask1, exTask2], file := JsonFile.valid [exTask1, exTask2] }

end Claude

/-! ## Lemmas about the mark/remove loops -/

namespace Claude

theorem markAux_map_id (tid : Nat) (ts : List Task) :
    (markAux tid ts).1.map (fun t => t.id) = ts.map (fun t => t.id) := by
  induction ts with
  | nil => rfl
  | cons t ts ih =>
    by_cases h : t.id = tid
    · simp [markAux, h]
    · simp [markAux, h, ih]

theorem markAux_length (tid : Nat) (ts : List Task) :
    (markAux tid ts).1.length = ts.length := by
  have := congrArg List.length (markAux_map_id tid ts)
  simpa using this

theorem markAux_not_found (tid : Nat) (ts : List Task)
    (h : ∀ t ∈ ts, t.id ≠ tid) : markAux tid ts = (ts, false) := by
  induction ts with
  | nil => rfl
  | cons t ts ih =>
    have ht : t.id ≠ tid := h t (List.mem_cons_self t ts)
    simp [markAux, ht, ih (fun x hx => h x (List.mem_cons_of_mem t hx))]

theorem markAux_idem (tid : Nat) (ts : List Task) :
    markAux tid (markAux tid ts).1 = markAux tid ts := by
  induction ts with
  | nil => rfl
  | cons t ts ih =>
    by_cases h : t.id = tid
    · cases t with
      | mk i d c p dd ca =>
        simp only [] at h
        simp [markAux, h]
    · simp [markAux, h, ih]

theorem markAux_found_set (tid : Nat) (ts : List Task)
    (h : (markAux tid ts).2 = true) :
    ∃ i, ∃ hi : i < ts.length,
      ts[i].id = tid ∧
      (∀ j, ∀ _ : j < i, ts[j].id ≠ tid) ∧
      (markAux tid ts).1 = ts.set i { ts[i] with completed := true } := by
  induction ts with
  | nil => simp [markAux] at h
  | cons t ts ih =>
    by_cases ht : t.id = tid
    · exact ⟨0, by simp, by simpa using ht,
        fun j hj => absurd hj (Nat.not_lt_zero j), by simp [markAux, ht]⟩
    · have h' : (markAux tid ts).2 = true := by simpa [markAux, ht] using h
      obtain ⟨i, hi, h1, h2, h3⟩ := ih h'
      refine ⟨i + 1, by simpa using Nat.succ_lt_succ hi, by simpa using h1, ?_, ?_⟩
      · intro j hj
        cases j with
        | zero => simpa using ht
        | succ j => simpa using h2 j (Nat.lt_of_succ_lt_succ hj)
      · simp [markAux, ht, h3]

theorem removeAux_not_found (tid : Nat) (ts : List Task)
    (h : ∀ t ∈ ts, t.id ≠ tid) : removeAux tid ts = none := by
  induction ts with
  | nil => rfl
  | cons t ts ih =>
    have ht : t.id ≠ tid := h t (List.mem_cons_self t ts)
    simp [removeAux, ht, ih (fun x hx => h x (List.mem_cons_of_mem t hx))]

end Claude

/-! ## Claim theorems (first group) -/

namespace Claude

/-- C3 counterexample: `load()` on an existing file whose bytes are not
valid UTF-8 cannot parse the contents, yet instead of warning and
returning an empty collection it raises `UnicodeDecodeError` to its
caller — `except (json.JSONDecodeError, IOError)` (line 30) does not
catch it — refuting "in neither case does load raise a fatal error". -/
theorem load_undecodable_raises :
    load_tasks JsonFile.undecodable = Except.error "UnicodeDecodeError" := rfl

/-- C3 (amended): `load()` on a path with no backing file returns the
empty collection and prints nothing; on an existing file that decodes as
text but cannot be parsed as JSON (or whose read raises `IOError`) it
prints a warning and returns the empty collection without raising; on a
parseable file it returns its contents silently; but on an existing file
whose bytes cannot be decoded it raises `UnicodeDecodeError` uncaught.
In the delimited variant a nonexistent file leaves the
constructor-initialised empty collection in place. -/
theorem load_missing_vs_corrupt (ts : List Task) (content : String)
    (pts : List (List String)) :
    load_tasks JsonFile.absent = Except.ok ([], []) ∧
    load_tasks JsonFile.invalid =
      Except.ok ([], ["Error reading tasks.json. Starting with an empty task list."]) ∧
    load_tasks (JsonFile.valid ts) = Except.ok (ts, []) ∧
    load_tasks JsonFile.undecodable = Except.error "UnicodeDecodeError" ∧
    Perplexity.load_tasks false content pts = pts :=
  ⟨rfl, rfl, rfl, rfl, rfl⟩

/-- C4: `complete(id)` and `remove(id)` on an id that no task carries
return `false` and leave the whole store (task list and backing file)
unchanged; being total functions they raise nothing. -/
theorem missing_id_is_noop (s : Store) (tid : Nat) (writeOk : Bool)
    (h : ∀ t ∈ s.tasks, t.id ≠ tid) :
    (completeStore s tid writeOk).1 = false ∧
    (completeStore s tid writeOk).2.1 = s ∧
    (removeStore s tid writeOk).1 = false ∧
    (removeStore s tid writeOk).2.1 = s := by
  have h1 := markAux_not_found tid s.tasks h
  have h2 := removeAux_not_found tid s.tasks h
  simp [completeStore, removeStore, mark_task_complete, remove_task, h1, h2]

/-- Witness for C4: `complete(99)` and `remove(99)` on the sample two-task
store return `false` and change nothing. -/
theorem missing_id_is_noop_witness :
    (∀ t ∈ exStore.tasks, t.id ≠ 99) ∧
    (completeStore exStore 99 true).1 = false ∧
    (completeStore exStore 99 true).2.1 = exStore ∧
    (removeStore exStore 99 true).1 = false ∧
    (removeStore exStore 99 true).2.1 = exStore :=
  ⟨by decide, missing_id_is_noop exStore 99 true (by decide)⟩

/-- C5: `add` assigns the new task the id `len(self.tasks) + 1` computed
before insertion, appends the task at the end of the collection, and
returns it with `completed = false`.  In particular after `remove(1)` on a
two-task collection the survivor is reindexed to a one-task collection, so
a subsequent `add` yields id 2, not 3. -/
theorem add_assigns_size_plus_one (tasks : List Task) (d p : String)
    (dd : Option String) (now : String) :
    (add_task tasks d p dd now).1.id = tasks.length + 1 ∧
    (add_task tasks d p dd now).2.1 = tasks ++ [(add_task tasks d p dd now).1] ∧
    (add_task tasks d p dd now).1.completed = false :=
  ⟨rfl, rfl, rfl⟩

/-- C8: `list(pending)` returns exactly the tasks with `completed = false`,
`list(completed)` exactly those with `completed = true`, the two are
disjoint and together a permutation of `list(None)` (which is the whole
collection); both filters preserve collection order (they are sublists of
the collection); and `list` leaves the store untouched and prints
nothing. -/
theorem list_partition (s : Store) :
    (∀ t, t ∈ (listStore s (some "pending")).1 ↔
      t ∈ s.tasks ∧ t.completed = false) ∧
    (∀ t, t ∈ (listStore s (some "completed")).1 ↔
      t ∈ s.tasks ∧ t.completed = true) ∧
    (∀ t, t ∈ (listStore s (some "pending")).1 →
      t ∉ (listStore s (some "completed")).1) ∧
    ((listStore s (some "pending")).1 ++
      (listStore s (some "completed")).1).Perm (listStore s none).1 ∧
    (listStore s (some "pending")).1.Sublist s.tasks ∧
    (listStore s (some "completed")).1.Sublist s.tasks ∧
    (listStore s none).1 = s.tasks ∧
    (∀ f, (listStore s f).2.1 = s ∧ (listStore s f).2.2 = ([] : List String)) := by
  have hp : (listStore s (some "pending")).1 =
      s.tasks.filter (fun t => !t.completed) := by
    simp [listStore, list_tasks]
  have hc : (listStore s (some "completed")).1 =
      s.tasks.filter (fun t => t.completed) := by
    simp [listStore, list_tasks]
  have hn : (listStore s none).1 = s.tasks := rfl
  refine ⟨?_, ?_, ?_, ?_, ?_, ?_, hn, fun f => ⟨rfl, rfl⟩⟩
  · intro t
    rw [hp]
    simp [List.mem_filter]
  · intro t
    rw [hc]
    simp [List.mem_filter]
  · intro t htp htc
    rw [hp] at htp
    rw [hc] at htc
    have h1 := (List.mem_filter.1 htp).2
    have h2 := (List.mem_filter.1 htc).2
    simp at h1
    rw [h1] at h2
    exact Bool.false_ne_true h2
  · rw [hp, hc, hn]
    exact List.Perm.trans List.perm_append_comm
      (List.filter_append_perm (fun t => t.completed) s.tasks)
  · rw [hp]
    exact List.filter_sublist s.tasks
  · rw [hc]
    exact List.filter_sublist s.tasks

/-- C9: `complete(id)` is idempotent on the store state: running it twice
(in the same write environment) leaves the task list and backing file
exactly as running it once does, whether or not the id exists. -/
theorem complete_idempotent (s : Store) (tid : Nat) (writeOk : Bool) :
    (completeStore (completeStore s tid writeOk).2.1 tid writeOk).2.1 =
      (completeStore s tid writeOk).2.1 := by
  cases hf : (markAux tid s.tasks).2 with
  | false => simp [completeStore, mark_task_complete, hf]
  | true =>
    cases writeOk <;>
      simp [completeStore, mark_task_complete, hf, markAux_idem, save_tasks]

/-- C10: when `complete(id)` finds a task, the new collection is the old
one with only the first matching task's `completed` field set: that task
keeps its id, description, priority, due date and creation stamp, every
other task is untouched, and length and order are preserved (this is what
`List.set` with a `completed`-only update states).  In the delimited
variant, `mark_complete(idx)` likewise preserves the length and every
entry other than position `idx - 1`. -/
theorem complete_modifies_only_completed (tasks : List Task) (tid : Nat)
    (h : (mark_task_complete tasks tid).2.1 = true)
    (pts : List (List String)) (idx : Nat) :
    (∃ i, ∃ hi : i < tasks.length,
      tasks[i].id = tid ∧
      (∀ j, ∀ _ : j < i, tasks[j].id ≠ tid) ∧
      (mark_task_complete tasks tid).1 =
        tasks.set i { tasks[i] with completed := true }) ∧
    (Perplexity.mark_complete pts idx).length = pts.length ∧
    (∀ j, j ≠ idx - 1 →
      (Perplexity.mark_complete pts idx).getD j [] = pts.getD j []) := by
  refine ⟨?_, ?_, ?_⟩
  · have h' : (markAux tid tasks).2 = true := by
      simpa [mark_task_complete] using h
    simpa [mark_task_complete] using markAux_found_set tid tasks h'
  · unfold Perplexity.mark_complete
    split <;> simp
  · intro j hj
    unfold Perplexity.mark_complete
    split
    · simp [List.getD_eq_getElem?_getD, List.getElem?_set_ne (Ne.symm hj)]
    · rfl

/-- Witness for C10: `complete(1)` on the sample two-task collection finds
index 0 and sets only its `completed` field; the delimited
`mark_complete(1)` keeps length and the other entries. -/
theorem complete_modifies_only_completed_witness :
    (mark_task_complete [exTask1, exTask2] 1).2.1 = true ∧
    ((∃ i, ∃ hi : i < [exTask1, exTask2].length,
      [exTask1, exTask2][i].id = 1 ∧
      (∀ j, ∀ _ : j < i, [exTask1, exTask2][j].id ≠ 1) ∧
      (mark_task_complete [exTask1, exTask2] 1).1 =
        [exTask1, exTask2].set i { [exTask1, exTask2][i] with completed := true }) ∧
    (Perplexity.mark_complete [["a", "Pending"]] 1).length =
      [["a", "Pending"]].length ∧
    (∀ j, j ≠ 1 - 1 →
      (Perplexity.mark_complete [["a", "Pending"]] 1).getD j [] =
        [["a", "Pending"]].getD j [])) :=
  ⟨by decide,
    complete_modifies_only_completed [exTask1, exTask2] 1 (by decide)
      [["a", "Pending"]] 1⟩

end Claude

/-! ## Removal, reindexing and the id-density invariant -/

namespace Claude

theorem removeAux_length (tid : Nat) (ts : List Task) (l : List Task)
    (h : removeAux tid ts = some l) : l.length + 1 = ts.length := by
  induction ts generalizing l with
  | nil => simp [removeAux] at h
  | cons t ts ih =>
    by_cases ht : t.id = tid
    · simp [removeAux, ht] at h
      simp [← h]
    · simp [removeAux, ht] at h
      obtain ⟨a, ha, rfl⟩ := h
      simp [← ih a ha]

theorem removeAux_eraseP (tid : Nat) (ts : List Task) (l : List Task)
    (h : removeAux tid ts = some l) :
    l = ts.eraseP (fun t => t.id == tid) := by
  induction ts generalizing l with
  | nil => simp [removeAux] at h
  | cons t ts ih =>
    by_cases ht : t.id = tid
    · simp [removeAux, ht] at h
      rw [List.eraseP_cons_of_pos (by simpa using ht)]
      exact h.symm
    · simp [removeAux, ht] at h
      obtain ⟨a, ha, rfl⟩ := h
      rw [List.eraseP_cons_of_neg (by simpa using ht)]
      simp [ih a ha]

theorem reindexFrom_length (k : Nat) (ts : List Task) :
    (reindexFrom k ts).length = ts.length := by
  induction ts generalizing k with
  | nil => rfl
  | cons t ts ih => simp [reindexFrom, ih]

theorem reindexFrom_map_id (k : Nat) (ts : List Task) :
    (reindexFrom k ts).map (fun t => t.id) = List.range' k ts.length := by
  induction ts generalizing k with
  | nil => rfl
  | cons t ts ih => simp [reindexFrom, ih, List.range'_succ]

theorem reindexFrom_map_stripId (k : Nat) (ts : List Task) :
    (reindexFrom k ts).map stripId = ts.map stripId := by
  induction ts generalizing k with
  | nil => rfl
  | cons t ts ih => simp [reindexFrom, ih, stripId]

theorem remove_found_shape (tasks : List Task) (tid : Nat)
    (h : (remove_task tasks tid).2.1 = true) :
    ∃ l, removeAux tid tasks = some l ∧
      (remove_task tasks tid).1 = reindexFrom 1 l := by
  cases hr : removeAux tid tasks with
  | none => simp [remove_task, hr] at h
  | some l => exact ⟨l, rfl, by simp [remove_task, hr]⟩

theorem idInv_add (ts : List Task) (d p : String) (dd : Option String)
    (now : String) (h : idInv ts) : idInv (add_task ts d p dd now).2.1 := by
  have e1 : (add_task ts d p dd now).2.1 =
      ts ++ [(add_task ts d p dd now).1] := rfl
  have e2 : (add_task ts d p dd now).1.id = ts.length + 1 := rfl
  unfold idInv at h ⊢
  rw [e1]
  simp only [List.map_append, List.map_cons, List.map_nil, e2,
    List.length_append, List.length_cons, List.length_nil, Nat.add_zero]
  have e3 : List.range' 1 (ts.length + 1) =
      List.range' 1 ts.length ++ [1 + ts.length] := by
    simpa using @List.range'_concat 1 1 ts.length
  rw [e3]
  refine List.Perm.append h ?_
  have e4 : 1 + ts.length = ts.length + 1 := Nat.add_comm 1 ts.length
  rw [e4]

theorem idInv_complete (ts : List Task) (tid : Nat) (h : idInv ts) :
    idInv (mark_task_complete ts tid).1 := by
  unfold idInv at h ⊢
  rw [show (mark_task_complete ts tid).1 = (markAux tid ts).1 from rfl,
    markAux_map_id, markAux_length]
  exact h

theorem idInv_remove (ts : List Task) (tid : Nat) (h : idInv ts) :
    idInv (remove_task ts tid).1 := by
  cases hr : removeAux tid ts with
  | none => simpa [remove_task, hr] using h
  | some l =>
    unfold idInv
    have e : (remove_task ts tid).1 = reindexFrom 1 l := by
      simp [remove_task, hr]
    rw [e, reindexFrom_map_id, reindexFrom_length]

theorem reachable_idInv (ts : List Task) (h : Reachable ts) : idInv ts := by
  induction h with
  | empty => simp [idInv]
  | add ts d p dd now _ ih => exact idInv_add ts d p dd now ih
  | complete ts tid _ ih => exact idInv_complete ts tid ih
  | remove ts tid _ ih => exact idInv_remove ts tid ih

/-- C1: a successful `remove(id)` keeps the survivors in their original
relative order — ignoring the rewritten ids, the result is the original
list with the first matching task erased — and reassigns their ids to
exactly the contiguous sequence `1..(N-1)`; and the id-density invariant
(the ids are exactly `{1..N}` for `N` the current count) holds after
every store operation, i.e. for every collection reachable from the empty
one by `add`/`complete`/`remove`. -/
theorem remove_renumbers_and_ids_dense (tasks : List Task) (tid : Nat)
    (h : (remove_task tasks tid).2.1 = true)
    (ts2 : List Task) (h2 : Reachable ts2) :
    ((remove_task tasks tid).1.map stripId =
      (tasks.eraseP (fun t => t.id == tid)).map stripId) ∧
    ((remove_task tasks tid).1.map (fun t => t.id) =
      List.range' 1 (tasks.length - 1)) ∧
    idInv ts2 := by
  obtain ⟨l, hl, he⟩ := remove_found_shape tasks tid h
  have hlen : l.length + 1 = tasks.length := removeAux_length tid tasks l hl
  refine ⟨?_, ?_, reachable_idInv ts2 h2⟩
  · rw [he, reindexFrom_map_stripId, removeAux_eraseP tid tasks l hl]
  · rw [he, reindexFrom_map_id]
    congr 1
    omega

/-- Witness for C1: removing id 1 from the sample two-task collection
renumbers the survivor to id 1, and the one-task collection built by a
single `add` from empty satisfies the id-density invariant. -/
theorem remove_renumbers_and_ids_dense_witness :
    (remove_task [exTask1, exTask2] 1).2.1 = true ∧
    ((remove_task [exTask1, exTask2] 1).1.map stripId =
      (([exTask1, exTask2]).eraseP (fun t => t.id == 1)).map stripId) ∧
    ((remove_task [exTask1, exTask2] 1).1.map (fun t => t.id) =
      List.range' 1 ([exTask1, exTask2].length - 1)) ∧
    idInv (add_task [] "Buy milk" "medium" none "2024-01-01 09:00:00").2.1 :=
  ⟨by decide,
    remove_renumbers_and_ids_dense [exTask1, exTask2] 1 (by decide) _
      (Reachable.add [] "Buy milk" "medium" none "2024-01-01 09:00:00"
        Reachable.empty)⟩

end Claude

/-! ## The delimited persistence format and the save/load round trip -/

namespace Perplexity

theorem univNL_eq_self (l : List Char) (h : ∀ c ∈ l, c ≠ '\r') :
    univNL l = l := by
  induction l with
  | nil => rfl
  | cons c rest ih =>
    have hc : c ≠ '\r' := h c (List.mem_cons_self c rest)
    have ih' := ih (fun x hx => h x (List.mem_cons_of_mem c hx))
    rw [univNL.eq_def]
    simp only []
    rw [if_neg hc, ih']

theorem splitOnChar_not_mem (sep : Char) (l : List Char)
    (h : ∀ c ∈ l, c ≠ sep) : TodoSpec.splitOnChar sep l = [l] := by
  induction l with
  | nil => rfl
  | cons c rest ih =>
    have hc : c ≠ sep := h c (List.mem_cons_self c rest)
    have ih' := ih (fun x hx => h x (List.mem_cons_of_mem c hx))
    simp [TodoSpec.splitOnChar, hc, ih']

theorem splitOnChar_append (sep : Char) (a b : List Char)
    (h : ∀ c ∈ a, c ≠ sep) :
    TodoSpec.splitOnChar sep (a ++ sep :: b) =
      a :: TodoSpec.splitOnChar sep b := by
  induction a with
  | nil => simp [TodoSpec.splitOnChar]
  | cons c rest ih =>
    have hc : c ≠ sep := h c (List.mem_cons_self c rest)
    have ih' := ih (fun x hx => h x (List.mem_cons_of_mem c hx))
    simp [TodoSpec.splitOnChar, hc, ih']

theorem noBad_spec (l : List Char) (h : noBad l = true) :
    ∀ c ∈ l, c ≠ '|' ∧ c ≠ '\n' ∧ c ≠ '\r' := by
  intro c hc
  have h' := List.all_eq_true.1 h c hc
  simp only [Bool.and_eq_true, bne_iff_ne] at h'
  exact ⟨h'.1.1, h'.1.2, h'.2⟩

theorem wfTask_shape (t : List String) (h : wfTask t = true) :
    ∃ d s, t = [d, s] := by
  cases t with
  | nil => simp [wfTask] at h
  | cons d r =>
    cases r with
    | nil => simp [wfTask] at h
    | cons s r2 =>
      cases r2 with
      | nil => exact ⟨d, s, rfl⟩
      | cons x r3 => simp [wfTask] at h

theorem wfTask_pair (d s : String) (h : wfTask [d, s] = true) :
    noBad d.data = true ∧ noBad s.data = true ∧
    headOk d.data = true ∧ lastOk s.data = true := by
  simpa [wfTask, Bool.and_eq_true, and_assoc] using h

theorem headOk_core (d s : List Char) (hd : headOk d = true) :
    headOk (d ++ '|' :: s) = true := by
  cases d with
  | nil => rfl
  | cons c r => simpa [headOk] using hd

theorem getLast?_append_cons (d : List Char) (x : Char) (l : List Char) :
    (d ++ x :: l).getLast? = (x :: l).getLast? := by
  induction d with
  | nil => rfl
  | cons y ys ih =>
    rw [List.cons_append, ← ih]
    cases hys : ys ++ x :: l with
    | nil => simp at hys
    | cons z zs => rw [List.getLast?_cons_cons]

theorem lastOk_core (d s : List Char) (hs : lastOk s = true) :
    lastOk (d ++ '|' :: s) = true := by
  cases s with
  | nil =>
    unfold lastOk
    rw [List.getLast?_concat]
    rfl
  | cons c r =>
    unfold lastOk at hs ⊢
    rw [getLast?_append_cons d '|' (c :: r), List.getLast?_cons_cons]
    exact hs

theorem pyStrip_eq_self (l : List Char) (h1 : headOk l = true)
    (h2 : lastOk l = true) : pyStrip l = l := by
  unfold pyStrip
  have e1 : l.dropWhile pyIsSpace = l := by
    cases hl : l with
    | nil => rfl
    | cons c r =>
      have hc : pyIsSpace c = false := by
        unfold headOk at h1
        rw [hl] at h1
        simpa using h1
      simp [List.dropWhile_cons, hc]
  rw [e1]
  have e2 : l.reverse.dropWhile pyIsSpace = l.reverse := by
    cases hr : l.reverse with
    | nil => rfl
    | cons c r =>
      have hc' : l.getLast? = some c := by
        rw [← List.head?_reverse, hr]
        rfl
      have hc : pyIsSpace c = false := by
        unfold lastOk at h2
        rw [hc'] at h2
        simpa using h2
      simp [List.dropWhile_cons, hc]
  rw [e2, List.reverse_reverse]

theorem saveData_cons (d s : String) (ts : List (List String)) :
    saveData ([d, s] :: ts) = lineCore [d, s] ++ '\n' :: saveData ts := by
  simp [saveData, lineCore]

theorem saveData_no_cr (ts : List (List String))
    (h : ∀ t ∈ ts, wfTask t = true) : ∀ c ∈ saveData ts, c ≠ '\r' := by
  induction ts with
  | nil =>
    intro c hc
    simp [saveData] at hc
  | cons t ts ih =>
    have ht := h t (List.mem_cons_self t ts)
    obtain ⟨d, s, rfl⟩ := wfTask_shape t ht
    obtain ⟨h1, h2, _, _⟩ := wfTask_pair d s ht
    intro c hc
    rw [saveData_cons] at hc
    rcases List.mem_append.1 hc with hc1 | hc2
    · have hc1' : c ∈ d.data ++ '|' :: s.data := hc1
      rcases List.mem_append.1 hc1' with hd | hs'
      · exact (noBad_spec _ h1 c hd).2.2
      · rcases List.mem_cons.1 hs' with rfl | hs2
        · decide
        · exact (noBad_spec _ h2 c hs2).2.2
    · rcases List.mem_cons.1 hc2 with rfl | hc3
      · decide
      · exact ih (fun x hx => h x (List.mem_cons_of_mem _ hx)) c hc3

theorem splitOnChar_saveData (ts : List (List String))
    (h : ∀ t ∈ ts, wfTask t = true) :
    TodoSpec.splitOnChar '\n' (saveData ts) = ts.map lineCore ++ [[]] := by
  induction ts with
  | nil => rfl
  | cons t ts ih =>
    have ht := h t (List.mem_cons_self t ts)
    obtain ⟨d, s, rfl⟩ := wfTask_shape t ht
    obtain ⟨h1, h2, _, _⟩ := wfTask_pair d s ht
    have hnl : ∀ c ∈ lineCore [d, s], c ≠ '\n' := by
      intro c hc
      have hc' : c ∈ d.data ++ '|' :: s.data := hc
      rcases List.mem_append.1 hc' with hd | hs'
      · exact (noBad_spec _ h1 c hd).2.1
      · rcases List.mem_cons.1 hs' with rfl | hs2
        · decide
        · exact (noBad_spec _ h2 c hs2).2.1
    rw [saveData_cons, splitOnChar_append '\n' _ _ hnl,
      ih (fun x hx => h x (List.mem_cons_of_mem _ hx))]
    simp

theorem process_lineCore (d s : String) (h : wfTask [d, s] = true) :
    (TodoSpec.splitOnChar '|' (pyStrip (lineCore [d, s]))).map
      (fun l => String.mk l) = [d, s] := by
  obtain ⟨h1, h2, h3, h4⟩ := wfTask_pair d s h
  have hstrip : pyStrip (lineCore [d, s]) = lineCore [d, s] :=
    pyStrip_eq_self _ (headOk_core _ _ h3) (lastOk_core _ _ h4)
  have hcore : lineCore [d, s] = d.data ++ '|' :: s.data := rfl
  rw [hstrip, hcore,
    splitOnChar_append '|' _ _ (fun c hc => (noBad_spec _ h1 c hc).1),
    splitOnChar_not_mem '|' _ (fun c hc => (noBad_spec _ h2 c hc).1)]
  rfl

theorem parse_save_roundtrip (ts : List (List String))
    (h : ∀ t ∈ ts, wfTask t = true) :
    parseTasks (save_content ts) = ts := by
  unfold parseTasks save_content
  have hu : univNL (saveData ts) = saveData ts :=
    univNL_eq_self _ (saveData_no_cr ts h)
  have hrl : readLines (String.mk (saveData ts)).data = ts.map lineCore := by
    show readLines (saveData ts) = ts.map lineCore
    simp only [readLines, hu, splitOnChar_saveData ts h, List.getLast?_concat,
      List.dropLast_concat]
  rw [hrl, List.map_map]
  have : ∀ t ∈ ts,
      ((fun line => (TodoSpec.splitOnChar '|' (pyStrip line)).map
        (fun l => String.mk l)) ∘ lineCore) t = id t := by
    intro t ht
    have hw := h t ht
    obtain ⟨d, s, rfl⟩ := wfTask_shape t hw
    simpa using process_lineCore d s hw
  rw [List.map_congr_left this, List.map_id]

/-- C2 counterexample: in the delimited variant the claim fails for a
non-empty collection whose description contains the delimiter: saving
`[["a|b", "Pending"]]` writes the line `a|b|Pending`, which loads back as
the three-field task `["a", "b", "Pending"]`, so the description is not
reproduced. -/
theorem roundtrip_fails_on_delimiter :
    ([["a|b", "Pending"]] : List (List String)) ≠ [] ∧
    parseTasks (save_content [["a|b", "Pending"]]) ≠ [["a|b", "Pending"]] := by
  exact ⟨by simp, by decide⟩

/-- C2 (amended): save followed by load reproduces the collection exactly
— same tasks, order and field text — provided each task is a
`[description, status]` pair whose fields contain no `|` and no newline
characters, whose description does not begin with strippable whitespace
and whose status does not end with it (all tasks the app itself creates
from delimiter-free, newline-free, non-space-led input are of this form);
in the structured JSON variant, saving and re-loading returns exactly the
saved task list. -/
theorem save_load_roundtrip (ts : List (List String))
    (h : ∀ t ∈ ts, wfTask t = true)
    (cts : List Claude.Task) (f : Claude.JsonFile) :
    parseTasks (save_content ts) = ts ∧
    Claude.load_tasks (Claude.save_tasks cts true f).1 = Except.ok (cts, []) :=
  ⟨parse_save_roundtrip ts h, rfl⟩

/-- Witness for C2 (amended): a concrete two-task collection round-trips
exactly through the delimited file, and a concrete task list reloads
exactly in the JSON variant. -/
theorem save_load_roundtrip_witness :
    (∀ t ∈ ([["Buy milk", "Pending"], ["Call Bob", "Completed"]] :
      List (List String)), wfTask t = true) ∧
    parseTasks (save_content [["Buy milk", "Pending"], ["Call Bob", "Completed"]]) =
      [["Buy milk", "Pending"], ["Call Bob", "Completed"]] ∧
    Claude.load_tasks
      (Claude.save_tasks [Claude.exTask1] true Claude.JsonFile.absent).1 =
      Except.ok ([Claude.exTask1], []) :=
  ⟨by decide,
    save_load_roundtrip [["Buy milk", "Pending"], ["Call Bob", "Completed"]]
      (by decide) [Claude.exTask1] Claude.JsonFile.absent⟩

end Perplexity

/-! ## Input validation in `add_task` and persistence-failure behaviour -/

namespace Claude

/-- C6 counterexample: the empty string is falsy in Python, so
`add(..., due_date="")` skips the `strptime` validation entirely (line 62,
`if due_date:`): `""` does not parse as a `YYYY-MM-DD` date, yet the task
is stored with `due_date = ""` — not absent — and no warning is printed,
so the claimed discard-with-warning behaviour fails at this input. -/
theorem add_empty_due_date_not_discarded :
    validYMD "" = false ∧
    (add_task [] "Write report" "medium" (some "")
      "2024-01-01 09:00:00").1.due_date = some "" ∧
    (add_task [] "Write report" "medium" (some "")
      "2024-01-01 09:00:00").2.2 = [] :=
  ⟨rfl, rfl, rfl⟩

/-- C6 (amended): `add` lowercases the priority argument and stores it if
it is one of `low`/`medium`/`high`, storing `medium` otherwise; a
non-empty due-date argument is kept exactly when it parses per
`strptime('%Y-%m-%d')` and is otherwise discarded with a warning (and the
task is still created and appended); an absent (`None`) due date is stored
absent with no warning; an empty-string due date skips validation and is
stored verbatim with no warning. -/
theorem add_normalizes_priority_and_date (tasks : List Task) (d p : String)
    (dd : Option String) (now : String) :
    ((add_task tasks d p dd now).1.priority =
      if p.toLower = "low" || p.toLower = "medium" || p.toLower = "high"
      then p.toLower else "medium") ∧
    (∀ s, dd = some s → s ≠ "" →
      ((add_task tasks d p dd now).1.due_date =
        if validYMD s then some s else none) ∧
      ((add_task tasks d p dd now).2.2 = [] ↔ validYMD s = true)) ∧
    (dd = none →
      (add_task tasks d p dd now).1.due_date = none ∧
      (add_task tasks d p dd now).2.2 = []) ∧
    (dd = some "" →
      (add_task tasks d p dd now).1.due_date = some "" ∧
      (add_task tasks d p dd now).2.2 = []) ∧
    (add_task tasks d p dd now).2.1 = tasks ++ [(add_task tasks d p dd now).1] := by
  refine ⟨rfl, ?_, ?_, ?_, rfl⟩
  · rintro s rfl hs
    by_cases hv : validYMD s
    · constructor
      · simp [add_task, hs, hv]
      · simp [add_task, hs, hv]
    · constructor
      · simp [add_task, hs, hv]
      · simp [add_task, hs, hv]
  · rintro rfl
    exact ⟨rfl, rfl⟩
  · rintro rfl
    exact ⟨rfl, rfl⟩

/-- Witness for C6 (amended): adding with priority `"HIGH"` and due date
`"not-a-date"` stores the task with the date discarded and a warning
printed. -/
theorem add_normalizes_priority_and_date_witness :
    ((add_task [] "Review PR" "HIGH" (some "not-a-date")
      "2024-01-01 09:00:00").1.due_date =
      if validYMD "not-a-date" then some "not-a-date" else none) ∧
    ((add_task [] "Review PR" "HIGH" (some "not-a-date")
      "2024-01-01 09:00:00").2.2 = [] ↔ validYMD "not-a-date" = true) :=
  (add_normalizes_priority_and_date [] "Review PR" "HIGH" (some "not-a-date")
    "2024-01-01 09:00:00").2.1 "not-a-date" rfl (by decide)

/-- C7 counterexample: in the delimited variant `save_tasks` (lines 15–18
of `src/Perplexity/todoapp.py`) has no `try`/`except`, so a failing write
raises `IOError` out of the mutating call to the caller instead of being
reported as a recoverable warning — the claim's "never raised as a fatal
error" fails there. -/
theorem perplexity_write_failure_is_fatal :
    (Perplexity.add_task [] "Buy milk" false).2 = Except.error "IOError" := rfl

/-- C7 (amended): in the JSON variant, every mutating operation updates
the in-memory list before the persistence attempt — the resulting task
list does not depend on whether the write succeeds — a failed write adds
the save-error warning instead of raising and leaves the mutation in
place, and a successful write persists exactly the updated list.  In the
delimited variant the in-memory update equally precedes the write and is
not rolled back, but a write failure escapes as an uncaught exception
rather than being reported as a warning. -/
theorem write_failure_keeps_memory_state (s : Store) (d p now : String)
    (dd : Option String) (tid : Nat) (pts : List (List String)) (pt : String) :
    ((addStore s d p dd now false).2.1.tasks =
      (addStore s d p dd now true).2.1.tasks) ∧
    ((addStore s d p dd now true).2.1.file =
      JsonFile.valid (addStore s d p dd now true).2.1.tasks) ∧
    ("Error saving tasks to tasks.json" ∈ (addStore s d p dd now false).2.2) ∧
    ((completeStore s tid false).2.1.tasks =
      (completeStore s tid true).2.1.tasks) ∧
    ((completeStore s tid true).1 = true →
      (completeStore s tid true).2.1.file =
        JsonFile.valid (completeStore s tid true).2.1.tasks) ∧
    ((completeStore s tid false).1 = true →
      "Error saving tasks to tasks.json" ∈ (completeStore s tid false).2.2) ∧
    ((removeStore s tid false).2.1.tasks =
      (removeStore s tid true).2.1.tasks) ∧
    ((removeStore s tid true).1 = true →
      (removeStore s tid true).2.1.file =
        JsonFile.valid (removeStore s tid true).2.1.tasks) ∧
    ((removeStore s tid false).1 = true →
      "Error saving tasks to tasks.json" ∈ (removeStore s tid false).2.2) ∧
    ((Perplexity.add_task pts pt false).1 = pts ++ [[pt, "Pending"]]) ∧
    ((Perplexity.add_task pts pt false).1 =
      (Perplexity.add_task pts pt true).1) := by
  refine ⟨rfl, rfl, ?_, ?_, ?_, ?_, ?_, ?_, ?_, rfl, rfl⟩
  · simp [addStore, save_tasks]
  · cases hf : (markAux tid s.tasks).2 <;>
      simp [completeStore, mark_task_complete, save_tasks, hf]
  · intro hfound
    cases hf : (markAux tid s.tasks).2 with
    | false => simp [completeStore, mark_task_complete, hf] at hfound
    | true => simp [completeStore, mark_task_complete, save_tasks, hf]
  · intro hfound
    cases hf : (markAux tid s.tasks).2 with
    | false => simp [completeStore, mark_task_complete, hf] at hfound
    | true => simp [completeStore, mark_task_complete, save_tasks, hf]
  · cases hr : removeAux tid s.tasks <;>
      simp [removeStore, remove_task, save_tasks, hr]
  · intro hfound
    cases hr : removeAux tid s.tasks with
    | none => simp [removeStore, remove_task, hr] at hfound
    | some l => simp [removeStore, remove_task, save_tasks, hr]
  · intro hfound
    cases hr : removeAux tid s.tasks with
    | none => simp [removeStore, remove_task, hr] at hfound
    | some l => simp [removeStore, remove_task, save_tasks, hr]

/-- Witness for C7 (amended): on the sample store, `complete(1)` with a
failing write keeps the completed task in memory and prints the
save-error warning; with a succeeding write it persists the updated
list. -/
theorem write_failure_keeps_memory_state_witness :
    (completeStore exStore 1 true).1 = true ∧
    (completeStore exStore 1 false).1 = true ∧
    ((completeStore exStore 1 true).2.1.file =
      JsonFile.valid (completeStore exStore 1 true).2.1.tasks) ∧
    ("Error saving tasks to tasks.json" ∈ (completeStore exStore 1 false).2.2) :=
  ⟨by decide, by decide,
    (write_failure_keeps_memory_state exStore "d" "medium" "now" none 1 []
      "x").2.2.2.2.1 (by decide),
    (write_failure_keeps_memory_state exStore "d" "medium" "now" none 1 []
      "x").2.2.2.2.2.1 (by decide)⟩

end Claude

end TodoSpec
